import Mathlib

/-!
Verification of the uber-jar packaging script (`uberjar.py`).

The development shallowly embeds the script's merge/conflict-resolution
core: the glob pattern matcher (Python `fnmatch.fnmatch`, POSIX
case-sensitive semantics), the nested-jar resolver
(`handleNestedJarsOnClasspath`), the per-archive extraction/merge state
machine (`extract`), and the top-level control flow of `main` including
its exit-status behaviour.  File trees are modelled as association lists
from relative paths to file contents; the external `jar` tool and the
file system are modelled as an explicit environment.
-/

namespace Uberjar

/-- Splits a character-class body at the terminating `]`; `none` when the
class is unterminated. -/
def splitAtRBracket : List Char → Option (List Char × List Char)
  | [] => none
  | c :: r =>
    if c = ']' then some ([], r)
    else
      match splitAtRBracket r with
      | some (cls, rest) => some (c :: cls, rest)
      | none => none

/-- Parses the pattern after a `[`: optional negation `!`, a first `]`
taken literally, then the class body up to the closing `]`.  Returns
(negated, class characters, rest of pattern); `none` when the class is
unterminated (the `[` is then a literal). -/
def parseBracket (ps : List Char) : Option (Bool × List Char × List Char) :=
  match ps with
  | [] => none
  | c :: r =>
    let neg := c = '!'
    match (if neg then r else c :: r) with
    | [] => none
    | d :: r2 =>
      match splitAtRBracket (if d = ']' then r2 else d :: r2) with
      | none => none
      | some (cls, rest) => some (neg, (if d = ']' then [']'] else []) ++ cls, rest)

/-- Character-class membership with `a-z` ranges; a `-` that cannot form a
range is a literal. -/
def inClass (a : Char) : List Char → Bool
  | c1 :: '-' :: c2 :: rest => (decide (c1 ≤ a) && decide (a ≤ c2)) || inClass a rest
  | c :: rest => (a == c) || inClass a rest
  | [] => false

/-- Fueled glob matcher.  With fuel exceeding `s.length + p.length` this
computes Python `fnmatch.fnmatch(s, p)` on POSIX. -/
def fnmatchF : Nat → List Char → List Char → Bool
  | 0, _, _ => false
  | fuel+1, s, p =>
    match p with
    | [] => s.isEmpty
    | c :: ps =>
      if c = '*' then
        fnmatchF fuel s ps ||
          (match s with
           | [] => false
           | _ :: s2 => fnmatchF fuel s2 (c :: ps))
      else if c = '[' then
        match parseBracket ps with
        | some (neg, cls, rest) =>
          match s with
          | [] => false
          | a :: s2 => (inClass a cls != neg) && fnmatchF fuel s2 rest
        | none =>
          match s with
          | [] => false
          | a :: s2 => (a == '[') && fnmatchF fuel s2 ps
      else if c = '?' then
        match s with
        | [] => false
        | _ :: s2 => fnmatchF fuel s2 ps
      else
        match s with
        | [] => false
        | a :: s2 => (a == c) && fnmatchF fuel s2 ps

/-- Glob match on character lists, with sufficient fuel supplied. -/
def gmatch (s p : List Char) : Bool := fnmatchF (s.length + p.length + 1) s p

/-- Model of `fnmatch.fnmatch(s, p)`. -/
def globMatch (s p : String) : Bool := gmatch s.data p.data

/-- Model of `any(fnmatch(s, pat) for pat in pats)`. -/
def matchesAny (s : String) (pats : List String) : Bool :=
  pats.any (fun p => globMatch s p)

/-- A character that is not a glob metacharacter. -/
def plainChar (c : Char) : Bool := !(c == '*') && !(c == '[') && !(c == '?')

/-- A pattern fragment containing no glob metacharacters. -/
def noSpecial (p : List Char) : Bool := p.all plainChar

/-- Model of Python `needle in hay` (substring containment). -/
def pcontains (hay needle : String) : Bool :=
  hay.data.tails.any (fun t => needle.data.isPrefixOf t)

/-- Model of Python `s.startswith(pre)`. -/
def pstartsWith (s pre : String) : Bool := pre.data.isPrefixOf s.data

/-- Model of Python `s.endswith(suf)`. -/
def pendsWith (s suf : String) : Bool := suf.data.isSuffixOf s.data

/-- Model of Python `s.strip()` (the script only strips ASCII whitespace). -/
def pstrip (s : String) : String :=
  ⟨((s.data.dropWhile Char.isWhitespace).reverse.dropWhile Char.isWhitespace).reverse⟩

/-- Model of Python `s[n:]`. -/
def pdrop (s : String) (n : Nat) : String := ⟨s.data.drop n⟩

/-- Splits a character list at every occurrence of `sep`; underlies the
model of Python `s.split(sep)` for one-character separators. -/
def splitOnChar (sep : Char) : List Char → List (List Char)
  | [] => [[]]
  | c :: r =>
    let rs := splitOnChar sep r
    if c = sep then [] :: rs
    else
      match rs with
      | [] => [[c]]
      | h :: t => (c :: h) :: t

/-- Model of Python `s.split(sep)` for a one-character separator. -/
def psplit (s : String) (sep : Char) : List String :=
  (splitOnChar sep s.data).map (fun l => ⟨l⟩)

/-- Model of `os.path.basename` on the paths the script builds (POSIX
separators). -/
def pbasename (s : String) : String := (psplit s '/').getLastD ""

/-- Model of `jar.split("_")[0]`: the plugin family key of an archive name. -/
def familyKey (jar : String) : String := (psplit jar '_').headD ""

/-- Boolean membership in a list of strings (Python `x in list`). -/
def strMem (x : String) (l : List String) : Bool := l.any (fun y => y = x)

/-! ## The classification lists of the script (its module-level constants). -/

def IGNORED_JARS : List String := ["org.apache.ant*"]

def IGNORE_NESTED_JARS : List String := []

def IGNORED_FILES : List String :=
  ["org/*/*.java", "com/*/*.java", "de/*/*.java", "module-info.class", "*._trace",
   "*.g", "*.mwe2", "*.xtext", "*.genmodel", "*.ecore", "*.ecorediag", "*.html",
   "*.profile", ".api_description", ".options", "log4j.properties", "about.*",
   "about_*", "about_files/*", "cheatsheets/*", "META-INF/*.DSA", "META-INF/*.RSA",
   "META-INF/*.SF", "META-INF/changelog.txt", "META-INF/DEPENDENCIES",
   "META-INF/eclipse.inf", "META-INF/INDEX.LIST", "META-INF/MANIFEST.MF",
   "META-INF/maven/*", "META-INF/NOTICE.txt", "META-INF/NOTICE", "META-INF/p2.inf",
   "OSGI-INF/l10n/bundle.properties", "docs/*", "*readme.txt", "plugin.xml",
   "schema/*", "profile.list", "systembundle.properties", "version.txt",
   "xtend-gen/*"]

def APPEND_MERGE : List String :=
  ["plugin.properties", "META-INF/services/*", "META-INF/LICENSE.txt",
   "META-INF/LICENSE"]

def IGNORE_MERGE : List String :=
  ["eclipse32.png", "modeling32.png", "icons/*.png", "icons/*.gif", "epl-v10.html",
   "org/osgi/service/log/*", "META-INF/AL*", "META-INF/LGPL*", "META-INF/GPL*"]

def KLIGHD_JARS_BLACKLIST : List String :=
  ["org.eclipse.ui*", "org.eclipse.e4*", "org.eclipse.*.ui*"]

def KLIGHD_JARS_WHITELIST : List String :=
  ["org.eclipse.ui.workbench_*", "org.eclipse.ui.ide_*"]

def KLIGHD_IGNORED_FILES : List String :=
  ["org/eclipse/ui/[!I]*", "org/eclipse/ui/*/*", "org.eclipse.ui.ide*/icons/*",
   "fragment.properties"]

/-- Lookup in an association list keyed by strings. -/
def alook {α : Type} : List (String × α) → String → Option α
  | [], _ => none
  | (q, c) :: r, p => if q = p then some c else alook r p

/-- Write through an association list: overwrite the first binding or
append a new one. -/
def asgn {α : Type} : List (String × α) → String → α → List (String × α)
  | [], p, v => [(p, v)]
  | (q, c) :: r, p, v => if q = p then (q, v) :: r else (q, c) :: asgn r p v

/-- Remove the first binding of a key. -/
def aerase {α : Type} : List (String × α) → String → List (String × α)
  | [], _ => []
  | (q, c) :: r, p => if q = p then r else (q, c) :: aerase r p

/-! ## Merge engine (the inner per-file loop of `extract`)

State folded over the files of one extracted archive.  `conflictMsgs`
records the `[ERROR] Could not merge <jar> Conflicting file: <file>`
messages, `moved` the relative paths that `os.renames` moved out of the
scratch directory into the merged tree. -/

structure MergeSt where
  merged : List (String × String)
  conflicts : Bool
  conflictMsgs : List (String × String)
  moved : List String
deriving DecidableEq

/-- One iteration of the per-file merge loop of `extract` for the file
`fe.1` with content `fe.2` from archive `jar`. -/
def mergeStep (klighd : Bool) (jar : String) (st : MergeSt) (fe : String × String) :
    MergeSt :=
  if matchesAny fe.1 IGNORED_FILES then st
  else if klighd && matchesAny fe.1 KLIGHD_IGNORED_FILES then st
  else
    match alook st.merged fe.1 with
    | some old =>
      if matchesAny fe.1 APPEND_MERGE then
        { st with merged := asgn st.merged fe.1 (old ++ "\n" ++ fe.2) }
      else if matchesAny fe.1 IGNORE_MERGE then st
      else { st with conflicts := true, conflictMsgs := st.conflictMsgs ++ [(jar, fe.1)] }
    | none =>
      { st with merged := asgn st.merged fe.1 fe.2, moved := st.moved ++ [fe.1] }

/-- The per-file merge loop of `extract` over one archive's files (in walk
order). -/
def mergeFiles (klighd : Bool) (jar : String) (st : MergeSt)
    (files : List (String × String)) : MergeSt :=
  files.foldl (mergeStep klighd jar) st

/-- Files of the scratch directory still present after the merge walk:
everything that was not moved into the merged tree. -/
def leftoverFiles (files : List (String × String)) (moved : List String) :
    List (String × String) :=
  files.filter (fun fe => !(strMem fe.1 moved))

/-- Folding the merges of a list of archives (name, files) over the state. -/
def mergeRuns (klighd : Bool) (runs : List (String × List (String × String)))
    (st : MergeSt) : MergeSt :=
  runs.foldl (fun s r => mergeFiles klighd r.1 s r.2) st

/-! ## Nested-archive resolver (`handleNestedJarsOnClasspath`)

Given an extracted archive's file tree and the set of file names in the
top-level input directory, parses `META-INF/MANIFEST.MF` for the
`Bundle-ClassPath` field and moves referenced nested jars into the input
directory.  The result carries the updated input-directory names, the
remaining extracted tree (moved jars are gone from it), the newly
discovered jar names (in order), and the warnings for unresolved
entries. -/

structure NestedSt where
  srcFiles : List String
  remaining : List (String × String)
  discovered : List String
  warnings : List String
deriving DecidableEq

/-- Truthiness of the `classpath` accumulator variable (Python `None` and
the empty string are falsy). -/
def cpTruthy : Option String → Bool
  | none => false
  | some s => !(s = "")

/-- The value of the `classpath` accumulator (only read when truthy). -/
def cpGet : Option String → String
  | none => ""
  | some s => s

/-- The manifest line scan of `handleNestedJarsOnClasspath`: a line
containing `Bundle-ClassPath:` starts (or restarts) the field with the
line's tail from index 17 (the `" "` fallback keeps a found-but-empty
field truthy); while the field is open, a line containing `:` ends it and
any other line's stripped text is appended. -/
def parseClasspathLoop : List String → Option String → Option String
  | [], cp => cp
  | line :: rest, cp =>
    if pcontains line "Bundle-ClassPath:" then
      let startCP := pstrip (pdrop line 17)
      parseClasspathLoop rest (some (if startCP = "" then " " else startCP))
    else if cpTruthy cp && pcontains line ":" then cp
    else if cpTruthy cp then parseClasspathLoop rest (some (cpGet cp ++ pstrip line))
    else parseClasspathLoop rest cp

/-- Processing of one comma-separated classpath entry: entries that are
empty, `.` or have no `.jar` in them are ignored; an entry resolving to an
existing file is moved into the input directory (silently skipped when a
file of that name is already there) and reported; a missing file yields a
warning. -/
def processCP (st : NestedSt) (cp : String) : NestedSt :=
  let cpFile := pstrip cp
  if cpFile = "" then st
  else if cpFile = "." then st
  else if !(pcontains cpFile ".jar") then st
  else if (alook st.remaining cpFile).isSome then
    if strMem (pbasename cpFile) st.srcFiles then st
    else
      { srcFiles := st.srcFiles ++ [pbasename cpFile],
        remaining := aerase st.remaining cpFile,
        discovered := st.discovered ++ [pbasename cpFile],
        warnings := st.warnings }
  else { st with warnings := st.warnings ++ [cpFile] }

/-- Model of `handleNestedJarsOnClasspath(dir, jars_dir)`: `files` is the
extracted tree rooted at `dir`, `srcFiles` the names present in
`jars_dir`. -/
def handleNestedJarsOnClasspath (files : List (String × String))
    (srcFiles : List String) : NestedSt :=
  match alook files "META-INF/MANIFEST.MF" with
  | none => ⟨srcFiles, files, [], []⟩
  | some content =>
    let cp := parseClasspathLoop (psplit content '\n') none
    if cpTruthy cp then
      (psplit (cpGet cp) ',').foldl processCP ⟨srcFiles, files, [], []⟩
    else ⟨srcFiles, files, [], []⟩

/-! ## Extraction loop (`extract`) and top-level control flow (`main`)

Exceptions of the script are modelled explicitly: `stop` raises
`SystemExit(2)`; a failing `check_call` raises `CalledProcessError`;
SIGINT raises `KeyboardInterrupt`; and the call `stop('Unknown
platform-specific SWT fragment: ', jar)` passes two arguments to the
one-parameter function `stop`, so it raises `TypeError` before any exit
code is set.  An exception other than `KeyboardInterrupt` is uncaught at
top level; the interpreter then terminates with exit status 1. -/

inductive PyExc where
  | systemExit (code : Nat)
  | calledProcessError
  | keyboardInterrupt
  | typeError
deriving DecidableEq

/-- Behaviour of the environment (the external `jar` tool): the tree each
archive unpacks to, whether its `check_call` fails, and whether SIGINT
arrives during it. -/
structure Wld where
  contents : String → List (String × String)
  unpackFails : String → Bool
  interrupt : String → Bool

/-- State of the `extract` loop: merge state, the processed-archive
records `(family key, jar)`, the duplicate-version warnings, the nested
warnings, the klighd SWT platform buckets, the current input-directory
file names, the already-consumed work-list prefix, and the leftover
scratch trees per archive. -/
structure ExtractSt where
  ms : MergeSt
  processed : List (String × String)
  dupWarnings : List String
  nestedWarnings : List String
  swt : List (String × List (String × String))
  sourceFiles : List String
  past : List String
  scratch : List (String × List (String × String))
deriving DecidableEq

/-- Platform recognition of a klighd SWT fragment, from substrings of the
archive name. -/
def swtPlatform (jar : String) : Option String :=
  if pcontains jar "gtk.linux.x86_64" then some "linux"
  else if pcontains jar "win32.win32.x86_64" then some "win"
  else if pcontains jar "cocoa.macosx.x86_64" then some "osx"
  else none

/-- Result of processing one work-list entry: continue with a new state
and extra work-list items, or raise an exception. -/
inductive StepRes where
  | next (st : ExtractSt) (extra : List String)
  | raise (e : PyExc)
deriving DecidableEq

/-- One iteration of the `for jar in jars` loop of `extract`.  `rest` is
the not-yet-consumed tail of the work list (needed for the `j not in
jars` filter on newly discovered nested jars). -/
def extractStep (w : Wld) (klighd : Bool) (st : ExtractSt) (jar : String)
    (rest : List String) : StepRes :=
  if !(pendsWith jar ".jar") then
    .next { st with past := st.past ++ [jar] } []
  else if klighd && matchesAny jar KLIGHD_JARS_BLACKLIST &&
      !(matchesAny jar KLIGHD_JARS_WHITELIST) then
    .next { st with past := st.past ++ [jar] } []
  else if strMem (familyKey jar) (st.processed.map Prod.fst) then
    .next { st with dupWarnings := st.dupWarnings ++ [jar],
                    past := st.past ++ [jar] } []
  else if w.interrupt jar then .raise .keyboardInterrupt
  else if w.unpackFails jar then .raise .calledProcessError
  else
    let files := w.contents jar
    if klighd && pstartsWith jar "org.eclipse.swt." then
      match swtPlatform jar with
      | none => .raise .typeError
      | some p =>
        .next { st with
                swt := asgn st.swt p
                  (files.filter (fun fe => !(matchesAny fe.1 IGNORED_FILES ||
                    matchesAny fe.1 KLIGHD_IGNORED_FILES))),
                past := st.past ++ [jar] } []
    else
      let nst := if matchesAny jar IGNORE_NESTED_JARS then
                   NestedSt.mk st.sourceFiles files [] []
                 else handleNestedJarsOnClasspath files st.sourceFiles
      let newJars := nst.discovered.foldl
        (fun acc j => if strMem j (st.past ++ jar :: rest ++ acc) then acc
                      else acc ++ [j]) []
      let ms1 := mergeFiles klighd jar { st.ms with moved := [] } nst.remaining
      .next { ms := ms1,
              processed := st.processed ++ [(familyKey jar, jar)],
              dupWarnings := st.dupWarnings,
              nestedWarnings := st.nestedWarnings ++ nst.warnings,
              swt := st.swt,
              sourceFiles := nst.srcFiles,
              past := st.past ++ [jar],
              scratch := st.scratch ++ [(jar, leftoverFiles nst.remaining ms1.moved)] }
        newJars

/-- The `extract` work-list loop.  The fuel bounds the number of
iterations; the physical file system makes the real loop finite, and all
stated invariants hold for every fuel. -/
def extractLoop (w : Wld) (klighd : Bool) : Nat → ExtractSt → List String →
    Except PyExc ExtractSt
  | 0, st, _ => .ok st
  | fuel+1, st, worklist =>
    match worklist with
    | [] => .ok st
    | jar :: rest =>
      match extractStep w klighd st jar rest with
      | .raise e => .error e
      | .next st2 extra => extractLoop w klighd fuel st2 (rest ++ extra)

/-- Lexicographic comparison of code points (Python string ordering). -/
def charListLe : List Char → List Char → Bool
  | [], _ => true
  | _ :: _, [] => false
  | a :: s, b :: t => if a < b then true else if b < a then false else charListLe s t

def strLe (a b : String) : Bool := charListLe a.data b.data

def insertSorted (x : String) : List String → List String
  | [] => [x]
  | y :: r => if strLe x y then x :: y :: r else y :: insertSorted x r

/-- Model of Python `sorted` on a list of strings. -/
def sortStrings : List String → List String
  | [] => []
  | x :: r => insertSorted x (sortStrings r)

/-- The empty starting state of `extract`; the input directory initially
holds `listing`. -/
def initExtractSt (listing : List String) : ExtractSt :=
  ⟨⟨[], false, [], []⟩, [], [], [], [], listing, [], []⟩

/-- The command-line flags of the script that affect control flow. -/
structure Args where
  scripts : Bool
  java8 : Bool
  noswt : Bool
  ignore_conflicts : Bool
deriving DecidableEq

/-- The environment `main` runs in: whether the input directory exists,
its listing, the `jar` tool behaviour, the prior states of the two build
folders, and whether the bundling `check_call`s fail. -/
structure MainWorld where
  sourceIsDir : Bool
  listing : List String
  jarTool : Wld
  extractedPrior : Option (List String)
  mergedPrior : Option (List String)
  bundleFails : Bool
  updateFails : String → Bool

/-- The `Create build folders` step of `main` for one directory, as a
function from the directory's prior state (`none` = absent) to its state
afterwards: an existing directory is removed by `shutil.rmtree` and (on
this branch) never re-created; a missing one is created empty by
`os.mkdir`. -/
def createBuildFolder : Option (List String) → Option (List String)
  | some _ => none
  | none => some []

/-- Whether the special klighd handling is active: any listed archive name
starts with the klighd prefix. -/
def klighdDetect (listing : List String) : Bool :=
  listing.any (fun j => pstartsWith j "de.cau.cs.kieler.klighd")

/-- The body of `main` up to and including `bundle`, with exceptions
surfaced in the `Except` result.  `.ok` means `main` returned normally
(interpreter exit status 0). -/
def pymain (args : Args) (w : MainWorld) (fuel : Nat) : Except PyExc ExtractSt :=
  if !w.sourceIsDir then .error (.systemExit 2)
  else
    let klighd := klighdDetect w.listing
    match extractLoop w.jarTool klighd fuel (initExtractSt w.listing)
        (sortStrings w.listing) with
    | .error e => .error e
    | .ok st =>
      if st.ms.conflicts && !args.ignore_conflicts then .error (.systemExit 2)
      else if w.bundleFails then .error .calledProcessError
      else if klighd && !args.noswt && st.swt.any (fun pb => w.updateFails pb.1) then
        .error .calledProcessError
      else .ok st

/-- Observable outcome of a run: the interpreter exit status and whether
the `Abort` message of the `KeyboardInterrupt` handler was printed. -/
structure RunOutcome where
  exit : Nat
  abortPrinted : Bool
deriving DecidableEq

/-- The `if __name__ == '__main__'` block: `KeyboardInterrupt` is caught,
prints `Abort` and exits 0; `SystemExit` propagates with its code; any
other uncaught exception terminates the interpreter with status 1. -/
def topLevel (args : Args) (w : MainWorld) (fuel : Nat) : RunOutcome :=
  match pymain args w fuel with
  | .ok _ => ⟨0, false⟩
  | .error (.systemExit c) => ⟨c, false⟩
  | .error .keyboardInterrupt => ⟨0, true⟩
  | .error .calledProcessError => ⟨1, false⟩
  | .error .typeError => ⟨1, false⟩

/-- Decidable equality of `Except` results, for evaluating concrete runs. -/
instance {ε α : Type} [DecidableEq ε] [DecidableEq α] : DecidableEq (Except ε α) := fun x y =>
  match x, y with
  | .ok a, .ok b =>
    if h : a = b then isTrue (by subst h; rfl)
    else isFalse (fun hc => h (by injection hc))
  | .error e, .error f =>
    if h : e = f then isTrue (by subst h; rfl)
    else isFalse (fun hc => h (by injection hc))
  | .ok _, .error _ => isFalse (fun hc => Except.noConfusion hc)
  | .error _, .ok _ => isFalse (fun hc => Except.noConfusion hc)

/-! ## Concrete scenarios used by witnesses and counterexamples -/

def c1argsStrict : Args := ⟨false, false, false, false⟩

def c1argsTolerant : Args := ⟨false, false, false, true⟩

/-- Two archives that both carry `conf/app.ini`, with different content. -/
def c1jarTool : Wld :=
  { contents := fun j =>
      if j = "a.plug_1.0.0.jar" then [("conf/app.ini", "A")]
      else if j = "b.plug_1.0.0.jar" then [("conf/app.ini", "B")]
      else [],
    unpackFails := fun _ => false,
    interrupt := fun _ => false }

def c1world : MainWorld :=
  { sourceIsDir := true,
    listing := ["a.plug_1.0.0.jar", "b.plug_1.0.0.jar"],
    jarTool := c1jarTool,
    extractedPrior := none,
    mergedPrior := none,
    bundleFails := false,
    updateFails := fun _ => false }

/-- The extraction result of the `c1world` run: the first writer's content
is at `conf/app.ini`, the conflict flag is raised, and the error names the
second archive and the path. -/
def c1result : ExtractSt :=
  ⟨⟨[("conf/app.ini", "A")], true, [("b.plug_1.0.0.jar", "conf/app.ini")], []⟩,
   [("a.plug", "a.plug_1.0.0.jar"), ("b.plug", "b.plug_1.0.0.jar")], [], [], [],
   ["a.plug_1.0.0.jar", "b.plug_1.0.0.jar"],
   ["a.plug_1.0.0.jar", "b.plug_1.0.0.jar"],
   [("a.plug_1.0.0.jar", []), ("b.plug_1.0.0.jar", [("conf/app.ini", "B")])]⟩

/-- One trivial archive, for exercising the loop invariants. -/
def c3smallWld : Wld :=
  { contents := fun _ => [], unpackFails := fun _ => false, interrupt := fun _ => false }

def c3smallResult : ExtractSt :=
  ⟨⟨[], false, [], []⟩, [("a", "a_1.jar")], [], [], [], ["a_1.jar"], ["a_1.jar"],
   [("a_1.jar", [])]⟩

def c3jars : List String :=
  ["de.cau.cs.kieler.klighd.core_1.0.0.jar",
   "org.eclipse.swt.gtk.linux.x86_64_3.114.jar",
   "org.eclipse.swt.gtk.linux.x86_64_3.116.jar"]

/-- A klighd run whose work list carries two SWT fragments sharing the
plugin family key `org.eclipse.swt.gtk.linux.x86`. -/
def c3wld : Wld :=
  { contents := fun j =>
      if j = "org.eclipse.swt.gtk.linux.x86_64_3.114.jar" then [("libswt.so", "v114")]
      else if j = "org.eclipse.swt.gtk.linux.x86_64_3.116.jar" then [("libswt.so", "v116")]
      else [],
    unpackFails := fun _ => false,
    interrupt := fun _ => false }

def c5args : Args := ⟨false, false, false, false⟩

/-- A run in which the external `jar` tool fails on the only archive. -/
def c5world : MainWorld :=
  { sourceIsDir := true,
    listing := ["a.plug_1.0.0.jar"],
    jarTool := { contents := fun _ => [],
                 unpackFails := fun _ => true,
                 interrupt := fun _ => false },
    extractedPrior := none,
    mergedPrior := none,
    bundleFails := false,
    updateFails := fun _ => false }

def c9jars : List String :=
  ["de.cau.cs.kieler.klighd.core_2.0.0.jar",
   "org.eclipse.swt.gtk.linux.x86_64_3.200.jar",
   "org.eclipse.swt.gtk.linux.x86_64_3.201.jar"]

/-- A klighd run in which the later of two same-family SWT fragments
carries a distinctive file, to observe where that file ends up. -/
def c9wld : Wld :=
  { contents := fun j =>
      if j = "org.eclipse.swt.gtk.linux.x86_64_3.200.jar" then [("fragment.A", "first")]
      else if j = "org.eclipse.swt.gtk.linux.x86_64_3.201.jar" then [("fragment.B", "second")]
      else [],
    unpackFails := fun _ => false,
    interrupt := fun _ => false }

def c10args : Args := ⟨false, false, false, false⟩

/-- A run interrupted by SIGINT during the only archive's extraction. -/
def c10world : MainWorld :=
  { sourceIsDir := true,
    listing := ["a.plug_1.0.0.jar"],
    jarTool := { contents := fun _ => [],
                 unpackFails := fun _ => false,
                 interrupt := fun _ => true },
    extractedPrior := none,
    mergedPrior := none,
    bundleFails := false,
    updateFails := fun _ => false }

/-! ## Theorems -/
theorem splitAtRBracket_length : ∀ l cls rest, splitAtRBracket l = some (cls, rest) →
    rest.length < l.length := by
  intro l
  induction l with
  | nil => intro cls rest h; simp [splitAtRBracket] at h
  | cons c r ih =>
    intro cls rest h
    simp only [splitAtRBracket] at h
    split at h
    · injection h with h
      injection h with h1 h2
      subst h2
      simp
    · revert h
      match hm : splitAtRBracket r with
      | none => intro h; exact absurd h (by simp)
      | some (cls2, rest2) =>
        intro h
        injection h with h
        injection h with h1 h2
        subst h2
        have := ih cls2 rest2 hm
        simp only [List.length_cons]
        omega

theorem parseBracket_length : ∀ ps neg cls rest, parseBracket ps = some (neg, cls, rest) →
    rest.length ≤ ps.length := by
  intro ps neg cls rest h
  match ps with
  | [] => simp [parseBracket] at h
  | c :: r =>
    simp only [parseBracket] at h
    revert h
    match hb : (if c = '!' then r else c :: r) with
    | [] => intro h; exact absurd h (by simp)
    | d :: r2 =>
      have hblen : (d :: r2).length ≤ (c :: r).length := by
        by_cases hc : c = '!'
        · rw [if_pos hc] at hb; rw [hb]; simp
        · rw [if_neg hc] at hb; rw [hb]
      match hm : splitAtRBracket (if d = ']' then r2 else d :: r2) with
      | none => intro h; simp [hm] at h
      | some (cls2, rest2) =>
        intro h
        simp only [hm] at h
        injection h with h
        injection h with h1 h2
        injection h2 with h2a h2b
        subst h2b
        have hlt := splitAtRBracket_length _ cls2 rest2 hm
        have hsl : (if d = ']' then r2 else d :: r2).length ≤ (d :: r2).length := by
          by_cases hd : d = ']'
          · rw [if_pos hd]; simp
          · rw [if_neg hd]
        simp only [List.length_cons] at hblen hsl ⊢
        omega

theorem fnmatchF_mono : ∀ f g s p, s.length + p.length < f → s.length + p.length < g →
    fnmatchF f s p = fnmatchF g s p := by
  intro f
  induction f with
  | zero => intro g s p hf; omega
  | succ f ih =>
    intro g s p hf hg
    match g, hg with
    | g+1, hg =>
      cases p with
      | nil => rfl
      | cons c ps =>
        simp only [List.length_cons] at hf hg
        cases s with
        | nil =>
          simp only [fnmatchF]
          by_cases hc : c = '*'
          · rw [if_pos hc, if_pos hc, ih g [] ps (by simp only [List.length_nil, List.length_cons]; omega) (by simp only [List.length_nil, List.length_cons]; omega)]
          · rw [if_neg hc, if_neg hc]
        | cons a s2 =>
          simp only [List.length_cons] at hf hg
          simp only [fnmatchF]
          by_cases hc : c = '*'
          · rw [if_pos hc, if_pos hc]
            rw [ih g (a :: s2) ps (by simp only [List.length_nil, List.length_cons]; omega) (by simp only [List.length_nil, List.length_cons]; omega)]
            rw [ih g s2 (c :: ps) (by simp only [List.length_nil, List.length_cons]; omega) (by simp only [List.length_nil, List.length_cons]; omega)]
          · rw [if_neg hc, if_neg hc]
            by_cases hb : c = '['
            · rw [if_pos hb, if_pos hb]
              match hm : parseBracket ps with
              | none =>
                simp only [hm]
                rw [ih g s2 ps (by omega) (by omega)]
              | some (neg, cls, rest) =>
                simp only [hm]
                have hr := parseBracket_length ps neg cls rest hm
                rw [ih g s2 rest (by omega) (by omega)]
            · rw [if_neg hb, if_neg hb]
              by_cases hq : c = '?'
              · rw [if_pos hq, if_pos hq]
                rw [ih g s2 ps (by omega) (by omega)]
              · rw [if_neg hq, if_neg hq]
                rw [ih g s2 ps (by omega) (by omega)]

theorem gmatch_eq_fnmatchF (s p : List Char) (f : Nat) (h : s.length + p.length < f) :
    gmatch s p = fnmatchF f s p :=
  fnmatchF_mono _ f s p (by omega) h

/-- Unfolding equation of the matcher on the empty pattern. -/
theorem gmatch_nil (s : List Char) : gmatch s [] = s.isEmpty := rfl

theorem fnmatchF_step_plain (k : Nat) (a c : Char) (s ps : List Char)
    (hstar : c ≠ '*') (hbr : c ≠ '[') (hq : c ≠ '?') :
    fnmatchF (k+1) (a :: s) (c :: ps) = ((a == c) && fnmatchF k s ps) := by
  conv_lhs => rw [fnmatchF]
  simp only [if_neg hstar, if_neg hbr, if_neg hq]

theorem fnmatchF_step_plain_nil (k : Nat) (c : Char) (ps : List Char)
    (hstar : c ≠ '*') (hbr : c ≠ '[') (hq : c ≠ '?') :
    fnmatchF (k+1) [] (c :: ps) = false := by
  conv_lhs => rw [fnmatchF]
  simp only [if_neg hstar, if_neg hbr, if_neg hq]

/-- Unfolding equation of the matcher on a plain leading pattern character. -/
theorem gmatch_plain (a c : Char) (s ps : List Char) (hc : plainChar c = true) :
    gmatch (a :: s) (c :: ps) = ((a == c) && gmatch s ps) := by
  simp only [plainChar, Bool.and_eq_true, Bool.not_eq_true', beq_eq_false_iff_ne] at hc
  obtain ⟨⟨hstar, hbr⟩, hq⟩ := hc
  show fnmatchF ((a :: s).length + (c :: ps).length + 1) (a :: s) (c :: ps) = _
  rw [fnmatchF_step_plain _ a c s ps hstar hbr hq]
  rw [fnmatchF_mono ((a :: s).length + (c :: ps).length) (s.length + ps.length + 1) s ps
    (by simp only [List.length_cons]; omega) (by omega)]
  rfl

/-- A plain pattern character never matches the empty string. -/
theorem gmatch_plain_nil (c : Char) (ps : List Char) (hc : plainChar c = true) :
    gmatch [] (c :: ps) = false := by
  simp only [plainChar, Bool.and_eq_true, Bool.not_eq_true', beq_eq_false_iff_ne] at hc
  obtain ⟨⟨hstar, hbr⟩, hq⟩ := hc
  show fnmatchF (([] : List Char).length + (c :: ps).length + 1) [] (c :: ps) = _
  rw [fnmatchF_step_plain_nil _ c ps hstar hbr hq]

/-- A fully literal pattern matches only itself. -/
theorem gmatch_literal : ∀ p s, noSpecial p = true → gmatch s p = true → s = p := by
  intro p
  induction p with
  | nil =>
    intro s hns h
    rw [gmatch_nil] at h
    exact List.isEmpty_iff.mp h
  | cons c ps ih =>
    intro s hns h
    simp only [noSpecial, List.all_cons, Bool.and_eq_true] at hns
    obtain ⟨hc, hps⟩ := hns
    cases s with
    | nil => rw [gmatch_plain_nil c ps hc] at h; exact absurd h (by simp)
    | cons a s2 =>
      rw [gmatch_plain a c s2 ps hc] at h
      simp only [Bool.and_eq_true, beq_iff_eq] at h
      obtain ⟨hac, h2⟩ := h
      rw [hac, ih s2 hps h2]

/-- A literal fragment at the head of a pattern is forced to be a prefix
of any matching string. -/
theorem gmatch_lit_prefix : ∀ p q s, noSpecial p = true → gmatch s (p ++ q) = true →
    p <+: s := by
  intro p
  induction p with
  | nil => intro q s _ _; exact List.nil_prefix
  | cons c ps ih =>
    intro q s hns h
    simp only [noSpecial, List.all_cons, Bool.and_eq_true] at hns
    obtain ⟨hc, hps⟩ := hns
    cases s with
    | nil =>
      rw [List.cons_append, gmatch_plain_nil c (ps ++ q) hc] at h
      exact absurd h (by simp)
    | cons a s2 =>
      rw [List.cons_append, gmatch_plain a c s2 (ps ++ q) hc] at h
      simp only [Bool.and_eq_true, beq_iff_eq] at h
      obtain ⟨hac, h2⟩ := h
      rw [hac]
      exact List.cons_prefix_cons.mpr ⟨rfl, ih q s2 hps h2⟩

/-- Two incomparable literal prefixes of the same string are contradictory. -/
theorem prefix_conflict {p1 p2 l : List Char} (h1 : p1 <+: l) (h2 : p2 <+: l)
    (ha : p1.isPrefixOf p2 = false) (hb : p2.isPrefixOf p1 = false) : False := by
  rcases List.prefix_or_prefix_of_prefix h1 h2 with h | h
  · rw [List.isPrefixOf_iff_prefix.mpr h] at ha; exact absurd ha (by simp)
  · rw [List.isPrefixOf_iff_prefix.mpr h] at hb; exact absurd hb (by simp)

theorem strMem_iff (x : String) (l : List String) : strMem x l = true ↔ x ∈ l := by
  simp [strMem]

/-- Any string matching the append-merge list is one of the three literal
patterns or extends the literal prefix of `META-INF/services/*`. -/
theorem append_match_cases (s : String) (h : matchesAny s APPEND_MERGE = true) :
    s = "plugin.properties" ∨ "META-INF/services/".data <+: s.data ∨
    s = "META-INF/LICENSE.txt" ∨ s = "META-INF/LICENSE" := by
  simp only [matchesAny, APPEND_MERGE, List.any_cons, List.any_nil, Bool.or_eq_true,
    Bool.or_false] at h
  rcases h with h | h | h | h
  · exact Or.inl (String.ext (gmatch_literal _ _ (by decide) h))
  · refine Or.inr (Or.inl ?_)
    have hsp : ("META-INF/services/*").data = ("META-INF/services/").data ++ ['*'] := by
      decide
    have h2 : gmatch s.data ("META-INF/services/".data ++ ['*']) = true := by
      rw [← hsp]; exact h
    exact gmatch_lit_prefix _ _ _ (by decide) h2
  · exact Or.inr (Or.inr (Or.inl (String.ext (gmatch_literal _ _ (by decide) h))))
  · exact Or.inr (Or.inr (Or.inr (String.ext (gmatch_literal _ _ (by decide) h))))

/-- Any string matching the ignore-merge list is one of the three literal
patterns or extends one of the literal prefixes of the starred patterns. -/
theorem ignore_match_cases (s : String) (h : matchesAny s IGNORE_MERGE = true) :
    s = "eclipse32.png" ∨ s = "modeling32.png" ∨ s = "epl-v10.html" ∨
    "icons/".data <+: s.data ∨ "org/osgi/service/log/".data <+: s.data ∨
    "META-INF/AL".data <+: s.data ∨ "META-INF/LGPL".data <+: s.data ∨
    "META-INF/GPL".data <+: s.data := by
  simp only [matchesAny, IGNORE_MERGE, List.any_cons, List.any_nil, Bool.or_eq_true,
    Bool.or_false] at h
  have pre : ∀ (pat lit : String), pat.data = lit.data ++ ('*' :: (pdrop pat (lit.length + 1)).data) →
      noSpecial lit.data = true → globMatch s pat = true → lit.data <+: s.data := by
    intro pat lit hsp hns hm
    have h2 : gmatch s.data (lit.data ++ ('*' :: (pdrop pat (lit.length + 1)).data)) = true := by
      rw [← hsp]; exact hm
    exact gmatch_lit_prefix _ _ _ hns h2
  rcases h with h | h | h | h | h | h | h | h | h
  · exact Or.inl (String.ext (gmatch_literal _ _ (by decide) h))
  · exact Or.inr (Or.inl (String.ext (gmatch_literal _ _ (by decide) h)))
  · refine Or.inr (Or.inr (Or.inr (Or.inl ?_)))
    exact pre "icons/*.png" "icons/" (by decide) (by decide) h
  · refine Or.inr (Or.inr (Or.inr (Or.inl ?_)))
    exact pre "icons/*.gif" "icons/" (by decide) (by decide) h
  · exact Or.inr (Or.inr (Or.inl (String.ext (gmatch_literal _ _ (by decide) h))))
  · refine Or.inr (Or.inr (Or.inr (Or.inr (Or.inl ?_))))
    exact pre "org/osgi/service/log/*" "org/osgi/service/log/" (by decide) (by decide) h
  · refine Or.inr (Or.inr (Or.inr (Or.inr (Or.inr (Or.inl ?_)))))
    exact pre "META-INF/AL*" "META-INF/AL" (by decide) (by decide) h
  · refine Or.inr (Or.inr (Or.inr (Or.inr (Or.inr (Or.inr (Or.inl ?_))))))
    exact pre "META-INF/LGPL*" "META-INF/LGPL" (by decide) (by decide) h
  · refine Or.inr (Or.inr (Or.inr (Or.inr (Or.inr (Or.inr (Or.inr ?_))))))
    exact pre "META-INF/GPL*" "META-INF/GPL" (by decide) (by decide) h

/-- No path matches both lists: the append-merge and ignore-merge policies
never compete for the same destination path. -/
theorem append_ignore_disjoint (s : String) (ha : matchesAny s APPEND_MERGE = true)
    (hi : matchesAny s IGNORE_MERGE = true) : False := by
  rcases append_match_cases s ha with h | hpre | h | h
  · subst h; exact absurd hi (by decide)
  · rcases ignore_match_cases s hi with h | h | h | h2 | h2 | h2 | h2 | h2
    · rw [h] at hpre
      exact absurd (List.isPrefixOf_iff_prefix.mpr hpre) (by decide)
    · rw [h] at hpre
      exact absurd (List.isPrefixOf_iff_prefix.mpr hpre) (by decide)
    · rw [h] at hpre
      exact absurd (List.isPrefixOf_iff_prefix.mpr hpre) (by decide)
    · exact prefix_conflict hpre h2 (by decide) (by decide)
    · exact prefix_conflict hpre h2 (by decide) (by decide)
    · exact prefix_conflict hpre h2 (by decide) (by decide)
    · exact prefix_conflict hpre h2 (by decide) (by decide)
    · exact prefix_conflict hpre h2 (by decide) (by decide)
  · subst h; exact absurd hi (by decide)
  · subst h; exact absurd hi (by decide)

theorem alook_asgn_self {α : Type} (l : List (String × α)) (p : String) (v : α) :
    alook (asgn l p v) p = some v := by
  induction l with
  | nil => simp [asgn, alook]
  | cons qc r ih =>
    obtain ⟨q, c⟩ := qc
    by_cases h : q = p
    · simp [asgn, alook, h]
    · simp [asgn, alook, h, ih]

theorem alook_asgn_other {α : Type} (l : List (String × α)) (p p2 : String) (v : α)
    (h : p ≠ p2) : alook (asgn l p v) p2 = alook l p2 := by
  induction l with
  | nil => simp [asgn, alook, h]
  | cons qc r ih =>
    obtain ⟨q, c⟩ := qc
    by_cases hq : q = p
    · subst hq; simp [asgn, alook, h, ih]
    · simp [asgn, alook, hq, ih]

/-- Merging a file at one path never touches the tree at another path. -/
theorem mergeStep_other (klighd : Bool) (jar : String) (st : MergeSt)
    (fe : String × String) (p : String) (h : fe.1 ≠ p) :
    alook (mergeStep klighd jar st fe).merged p = alook st.merged p := by
  unfold mergeStep
  split
  · rfl
  · split
    · rfl
    · match alook st.merged fe.1 with
      | some old =>
        simp only []
        split
        · exact alook_asgn_other _ _ _ _ h
        · split
          · rfl
          · rfl
      | none =>
        simp only []
        exact alook_asgn_other _ _ _ _ h

/-- Merging any list of files that avoids a path leaves the tree at that
path unchanged. -/
theorem mergeFiles_other (klighd : Bool) (jar : String)
    (files : List (String × String)) (p : String)
    (h : ∀ fe ∈ files, fe.1 ≠ p) :
    ∀ st : MergeSt, alook (mergeFiles klighd jar st files).merged p = alook st.merged p := by
  induction files with
  | nil => intro st; rfl
  | cons fe r ih =>
    intro st
    have h1 : fe.1 ≠ p := h fe (by simp)
    have h2 : ∀ g ∈ r, g.1 ≠ p := fun g hg => h g (by simp [hg])
    show alook (mergeFiles klighd jar (mergeStep klighd jar st fe) r).merged p = _
    rw [ih h2, mergeStep_other klighd jar st fe p h1]

/-- Once a path matching the ignore-merge list is present, no single merge
step changes its content: the append branch is unreachable for it by
`append_ignore_disjoint`, and all other branches keep the existing file. -/
theorem mergeStep_keep_ignore (klighd : Bool) (jar : String) (st : MergeSt)
    (fe : String × String) (p c : String)
    (hig : matchesAny p IGNORE_MERGE = true)
    (hc : alook st.merged p = some c) :
    alook (mergeStep klighd jar st fe).merged p = some c := by
  by_cases hfp : fe.1 = p
  · unfold mergeStep
    rw [hfp, hc]
    split
    · exact hc
    · split
      · exact hc
      · simp only []
        split
        · next hap => exact (append_ignore_disjoint p hap hig).elim
        · exact hc
  · rw [mergeStep_other klighd jar st fe p hfp]
    exact hc

/-- The same preservation lifted over a whole archive's merge walk. -/
theorem mergeFiles_keep_ignore (klighd : Bool) (jar : String)
    (files : List (String × String)) (p c : String)
    (hig : matchesAny p IGNORE_MERGE = true) :
    ∀ st : MergeSt, alook st.merged p = some c →
      alook (mergeFiles klighd jar st files).merged p = some c := by
  induction files with
  | nil => intro st hc; exact hc
  | cons fe r ih =>
    intro st hc
    show alook (mergeFiles klighd jar (mergeStep klighd jar st fe) r).merged p = _
    exact ih _ (mergeStep_keep_ignore klighd jar st fe p c hig hc)

/-- Ignore-merge preservation over arbitrarily many later archive merges. -/
theorem mergeRuns_keep_ignore (klighd : Bool)
    (runs : List (String × List (String × String))) (p c : String)
    (hig : matchesAny p IGNORE_MERGE = true) :
    ∀ st : MergeSt, alook st.merged p = some c →
      alook (mergeRuns klighd runs st).merged p = some c := by
  induction runs with
  | nil => intro st hc; exact hc
  | cons r rs ih =>
    intro st hc
    show alook (mergeRuns klighd rs (mergeFiles klighd r.1 st r.2)).merged p = _
    exact ih _ (mergeFiles_keep_ignore klighd r.1 r.2 p c hig st hc)

/-- Merges of archives whose files all avoid a path leave it unchanged. -/
theorem mergeRuns_other (klighd : Bool)
    (runs : List (String × List (String × String))) (p : String)
    (h : ∀ r ∈ runs, ∀ fe ∈ r.2, fe.1 ≠ p) :
    ∀ st : MergeSt, alook (mergeRuns klighd runs st).merged p = alook st.merged p := by
  induction runs with
  | nil => intro st; rfl
  | cons r rs ih =>
    intro st
    have h1 : ∀ fe ∈ r.2, fe.1 ≠ p := h r (by simp)
    have h2 : ∀ q ∈ rs, ∀ fe ∈ q.2, fe.1 ≠ p := fun q hq => h q (by simp [hq])
    show alook (mergeRuns klighd rs (mergeFiles klighd r.1 st r.2)).merged p = _
    rw [ih h2, mergeFiles_other klighd r.1 r.2 p h1]

/-- The step taken on an archive whose family key already has a
processed-archive record: warn and skip, touching nothing else. -/
theorem extractStep_dup (w : Wld) (klighd : Bool) (st : ExtractSt) (jar : String)
    (rest : List String)
    (h1 : pendsWith jar ".jar" = true)
    (h2 : (klighd && matchesAny jar KLIGHD_JARS_BLACKLIST &&
      !(matchesAny jar KLIGHD_JARS_WHITELIST)) = false)
    (h3 : strMem (familyKey jar) (st.processed.map Prod.fst) = true) :
    extractStep w klighd st jar rest =
      .next { st with dupWarnings := st.dupWarnings ++ [jar],
                      past := st.past ++ [jar] } [] := by
  simp [extractStep, h1, h2, h3]

/-- The loop equation for the duplicate-family skip. -/
theorem extractLoop_dup_skip (w : Wld) (klighd : Bool) (fuel : Nat) (st : ExtractSt)
    (jar : String) (rest : List String)
    (h1 : pendsWith jar ".jar" = true)
    (h2 : (klighd && matchesAny jar KLIGHD_JARS_BLACKLIST &&
      !(matchesAny jar KLIGHD_JARS_WHITELIST)) = false)
    (h3 : strMem (familyKey jar) (st.processed.map Prod.fst) = true) :
    extractLoop w klighd (fuel+1) st (jar :: rest) =
      extractLoop w klighd fuel
        { st with dupWarnings := st.dupWarnings ++ [jar],
                  past := st.past ++ [jar] } rest := by
  conv_lhs => rw [extractLoop]
  rw [extractStep_dup w klighd st jar rest h1 h2 h3]
  show extractLoop w klighd fuel _ (rest ++ []) = _
  rw [List.append_nil]

/-- The step taken on a recognized klighd SWT fragment: its filtered tree
goes to the platform bucket; the processed-archive records, the merged
tree and the duplicate warnings are untouched. -/
theorem extractStep_swt (w : Wld) (st : ExtractSt) (jar : String)
    (rest : List String) (p : String)
    (h1 : pendsWith jar ".jar" = true)
    (h2 : (matchesAny jar KLIGHD_JARS_BLACKLIST &&
      !(matchesAny jar KLIGHD_JARS_WHITELIST)) = false)
    (h3 : strMem (familyKey jar) (st.processed.map Prod.fst) = false)
    (h4 : w.interrupt jar = false)
    (h5 : w.unpackFails jar = false)
    (h6 : pstartsWith jar "org.eclipse.swt." = true)
    (h7 : swtPlatform jar = some p) :
    extractStep w true st jar rest =
      .next { st with
              swt := asgn st.swt p
                ((w.contents jar).filter (fun fe => !(matchesAny fe.1 IGNORED_FILES ||
                  matchesAny fe.1 KLIGHD_IGNORED_FILES))),
              past := st.past ++ [jar] } [] := by
  simp [extractStep, h1, h2, h3, h4, h5, h6, h7]

/-- The step taken on a klighd SWT fragment with no recognized platform
token: the two-argument call of the one-parameter `stop` raises
`TypeError` (not `SystemExit(2)`). -/
theorem extractStep_swt_unknown (w : Wld) (st : ExtractSt) (jar : String)
    (rest : List String)
    (h1 : pendsWith jar ".jar" = true)
    (h2 : (matchesAny jar KLIGHD_JARS_BLACKLIST &&
      !(matchesAny jar KLIGHD_JARS_WHITELIST)) = false)
    (h3 : strMem (familyKey jar) (st.processed.map Prod.fst) = false)
    (h4 : w.interrupt jar = false)
    (h5 : w.unpackFails jar = false)
    (h6 : pstartsWith jar "org.eclipse.swt." = true)
    (h7 : swtPlatform jar = none) :
    extractStep w true st jar rest = .raise .typeError := by
  simp [extractStep, h1, h2, h3, h4, h5, h6, h7]

/-- Every continuing step preserves distinctness of the recorded family
keys: only the merge branch appends a record, and it is guarded by the
duplicate check. -/
theorem extractStep_processed_nodup (w : Wld) (klighd : Bool) (st : ExtractSt)
    (jar : String) (rest : List String) (st2 : ExtractSt) (extra : List String)
    (hstep : extractStep w klighd st jar rest = .next st2 extra)
    (hn : (st.processed.map Prod.fst).Nodup) : (st2.processed.map Prod.fst).Nodup := by
  unfold extractStep at hstep
  split at hstep
  · injection hstep with ha hb; subst ha; exact hn
  · split at hstep
    · injection hstep with ha hb; subst ha; exact hn
    · split at hstep
      · injection hstep with ha hb; subst ha; exact hn
      · next hmem =>
        split at hstep
        · exact absurd hstep (by simp)
        · split at hstep
          · exact absurd hstep (by simp)
          · split at hstep
            · split at hstep
              · exact absurd hstep (by simp)
              · injection hstep with ha hb; subst ha; exact hn
            · injection hstep with ha hb
              subst ha
              simp only [List.map_append, List.map_cons, List.map_nil]
              rw [List.nodup_append]
              refine ⟨hn, List.nodup_singleton _, ?_⟩
              intro k hk hk1
              simp only [List.mem_singleton] at hk1
              subst hk1
              rw [strMem_iff] at hmem
              exact hmem hk

/-- The recorded family keys stay distinct through the whole loop. -/
theorem extractLoop_nodup (w : Wld) (klighd : Bool) : ∀ (fuel : Nat) (st : ExtractSt)
    (jars : List String) (st2 : ExtractSt),
    extractLoop w klighd fuel st jars = .ok st2 →
    (st.processed.map Prod.fst).Nodup → (st2.processed.map Prod.fst).Nodup := by
  intro fuel
  induction fuel with
  | zero =>
    intro st jars st2 h hn
    simp only [extractLoop] at h
    injection h with h
    subst h
    exact hn
  | succ f ih =>
    intro st jars st2 h hn
    cases jars with
    | nil =>
      simp only [extractLoop] at h
      injection h with h
      subst h
      exact hn
    | cons jar rest =>
      simp only [extractLoop] at h
      revert h
      match hstep : extractStep w klighd st jar rest with
      | .raise e => intro h; exact absurd h (by simp)
      | .next st3 extra =>
        intro h
        exact ih st3 (rest ++ extra) st2 h
          (extractStep_processed_nodup w klighd st jar rest st3 extra hstep hn)

/-! ## Family keys of SWT fragments -/

theorem splitOnChar_ne_nil (sep : Char) : ∀ l : List Char, splitOnChar sep l ≠ [] := by
  intro l
  cases l with
  | nil => simp [splitOnChar]
  | cons c r =>
    simp only [splitOnChar]
    by_cases h : c = sep
    · simp [h]
    · simp only [if_neg h]
      match splitOnChar sep r with
      | [] => simp
      | h0 :: t0 => simp

theorem splitOnChar_head (sep : Char) : ∀ l : List Char,
    (splitOnChar sep l).headD [] = l.takeWhile (fun c => decide (c ≠ sep)) := by
  intro l
  induction l with
  | nil => rfl
  | cons c r ih =>
    by_cases h : c = sep
    · subst h
      simp [splitOnChar, List.takeWhile_cons]
    · simp only [splitOnChar, if_neg h]
      revert ih
      match hm : splitOnChar sep r with
      | [] => exact absurd hm (splitOnChar_ne_nil sep r)
      | h0 :: t0 =>
        intro ih
        simp only [List.headD_cons] at ih ⊢
        rw [List.takeWhile_cons, if_pos (by simp [h]), ← ih]

/-- The family key is the archive name up to the first underscore. -/
theorem familyKey_data (jar : String) :
    (familyKey jar).data = jar.data.takeWhile (fun c => decide (c ≠ '_')) := by
  unfold familyKey psplit
  rw [← splitOnChar_head '_' jar.data]
  revert jar
  intro jar
  match hm : splitOnChar '_' jar.data with
  | [] => exact absurd hm (splitOnChar_ne_nil _ _)
  | h0 :: t0 => simp

theorem familyKey_front (jar : String) : (familyKey jar).data <+: jar.data := by
  rw [familyKey_data]
  exact List.takeWhile_prefix _

theorem prefix_no_sep : ∀ (p l : List Char), p <+: l → (∀ c ∈ p, c ≠ '_') →
    p <+: l.takeWhile (fun c => decide (c ≠ '_')) := by
  intro p
  induction p with
  | nil => intro l _ _; exact List.nil_prefix
  | cons c pr ih =>
    intro l hpre hns
    cases l with
    | nil => exact absurd (List.eq_nil_of_prefix_nil hpre) (by simp)
    | cons a r =>
      rw [List.cons_prefix_cons] at hpre
      obtain ⟨hca, hpr⟩ := hpre
      subst hca
      rw [List.takeWhile_cons, if_pos (by simp [hns c (by simp)])]
      exact List.cons_prefix_cons.mpr ⟨rfl, ih r hpr (fun d hd => hns d (by simp [hd]))⟩

/-- Any archive sharing the family key of an SWT fragment is itself
prefixed by `org.eclipse.swt.` (there is no underscore in that prefix, so
the key retains it). -/
theorem swt_key_forces_swt_prefix (j1 j2 : String)
    (h1 : pstartsWith j1 "org.eclipse.swt." = true)
    (heq : familyKey j2 = familyKey j1) :
    pstartsWith j2 "org.eclipse.swt." = true := by
  have hP : ("org.eclipse.swt.").data <+: j1.data := List.isPrefixOf_iff_prefix.mp h1
  have hnosep : ∀ c ∈ ("org.eclipse.swt.").data, c ≠ '_' := by decide
  have h2 : ("org.eclipse.swt.").data <+: (familyKey j1).data := by
    rw [familyKey_data]
    exact prefix_no_sep _ _ hP hnosep
  rw [← heq] at h2
  exact List.isPrefixOf_iff_prefix.mpr (h2.trans (familyKey_front j2))

/-! ## Claim theorems -/

/-- The merge step on a fresh destination path is a move. -/
theorem mergeStep_new (klighd : Bool) (jar : String) (st : MergeSt) (f c : String)
    (h1 : matchesAny f IGNORED_FILES = false)
    (h2 : (klighd && matchesAny f KLIGHD_IGNORED_FILES) = false)
    (h0 : alook st.merged f = none) :
    mergeStep klighd jar st (f, c) =
      { st with merged := asgn st.merged f c, moved := st.moved ++ [f] } := by
  simp [mergeStep, h1, h2, h0]

/-- The merge step on an occupied append-merge path appends a newline and
the new content. -/
theorem mergeStep_append (klighd : Bool) (jar : String) (st : MergeSt) (f b a : String)
    (h1 : matchesAny f IGNORED_FILES = false)
    (h2 : (klighd && matchesAny f KLIGHD_IGNORED_FILES) = false)
    (h3 : matchesAny f APPEND_MERGE = true)
    (ha : alook st.merged f = some a) :
    alook (mergeStep klighd jar st (f, b)).merged f = some (a ++ "\n" ++ b) := by
  simp [mergeStep, h1, h2, h3, ha, alook_asgn_self]

/-- C2: for a destination path matching an append-merge pattern (and not
excluded), merging archive A first places A's content there, and merging
archive B later — after arbitrarily many merges of other archives that
touch only other paths — leaves the file equal to A's content, a newline,
then B's content. -/
theorem C2_append_merge (klighd : Bool) (jA jB f a b : String) (st0 : MergeSt)
    (mids : List (String × List (String × String)))
    (h0 : alook st0.merged f = none)
    (h1 : matchesAny f IGNORED_FILES = false)
    (h2 : (klighd && matchesAny f KLIGHD_IGNORED_FILES) = false)
    (h3 : matchesAny f APPEND_MERGE = true)
    (hmid : ∀ r ∈ mids, ∀ fe ∈ r.2, fe.1 ≠ f) :
    alook (mergeStep klighd jB
        (mergeRuns klighd mids (mergeStep klighd jA st0 (f, a))) (f, b)).merged f
      = some (a ++ "\n" ++ b) := by
  have hA : alook (mergeStep klighd jA st0 (f, a)).merged f = some a := by
    rw [mergeStep_new klighd jA st0 f a h1 h2 h0]
    exact alook_asgn_self st0.merged f a
  have hMid : alook (mergeRuns klighd mids (mergeStep klighd jA st0 (f, a))).merged f
      = some a := by
    rw [mergeRuns_other klighd mids f hmid _]
    exact hA
  exact mergeStep_append klighd jB _ f b a h1 h2 h3 hMid

/-- Witness for C2 at a concrete input: `plugin.properties` written by one
archive, an unrelated archive merged in between, then appended by a later
archive. -/
theorem C2_append_merge_witness :
    alook (mergeStep false "b.plug_1.jar"
        (mergeRuns false [("m.plug_1.jar", [("other.txt", "zzz")])]
          (mergeStep false "a.plug_1.jar" ⟨[], false, [], []⟩
            ("plugin.properties", "k=a")))
        ("plugin.properties", "k=b")).merged "plugin.properties"
      = some ("k=a" ++ "\n" ++ "k=b") :=
  C2_append_merge false "a.plug_1.jar" "b.plug_1.jar" "plugin.properties" "k=a" "k=b"
    ⟨[], false, [], []⟩ [("m.plug_1.jar", [("other.txt", "zzz")])]
    (by decide) (by decide) (by decide) (by decide) (by decide)

/-- C4: once a file exists at a path matching an ignore-merge pattern, no
later merge of any sequence of archives, in any order, changes its
content: the later contribution is discarded and the existing file kept. -/
theorem C4_ignore_merge (klighd : Bool) (f c : String) (st : MergeSt)
    (laters : List (String × List (String × String)))
    (hig : matchesAny f IGNORE_MERGE = true)
    (hc : alook st.merged f = some c) :
    alook (mergeRuns klighd laters st).merged f = some c :=
  mergeRuns_keep_ignore klighd laters f c hig st hc

/-- Witness for C4 at a concrete input: an icon present in the tree
survives two later archives that both carry a file at the same path. -/
theorem C4_ignore_merge_witness :
    alook (mergeRuns false
        [("j2.plug_1.jar", [("icons/x.png", "Q")]), ("j3.plug_1.jar", [("icons/x.png", "R")])]
        ⟨[("icons/x.png", "P")], false, [], []⟩).merged "icons/x.png" = some "P" :=
  C4_ignore_merge false "icons/x.png" "P" ⟨[("icons/x.png", "P")], false, [], []⟩
    [("j2.plug_1.jar", [("icons/x.png", "Q")]), ("j3.plug_1.jar", [("icons/x.png", "R")])]
    (by decide) (by decide)

/-- C6: a file that is not excluded (nor klighd-excluded when that mode is
active) and whose destination path is free is placed in the merged tree
with exactly its content, by a move: the path is recorded as moved and no
file at that path remains in the scratch leftover. -/
theorem C6_new_file_move (klighd : Bool) (jar f c : String) (st : MergeSt)
    (h1 : matchesAny f IGNORED_FILES = false)
    (h2 : (klighd && matchesAny f KLIGHD_IGNORED_FILES) = false)
    (h3 : alook st.merged f = none) :
    alook (mergeStep klighd jar st (f, c)).merged f = some c ∧
    (mergeStep klighd jar st (f, c)).moved = st.moved ++ [f] ∧
    (∀ (files : List (String × String)) (fe : String × String),
      fe ∈ leftoverFiles files (mergeStep klighd jar st (f, c)).moved → fe.1 ≠ f) := by
  have hstep : mergeStep klighd jar st (f, c) =
      { st with merged := asgn st.merged f c, moved := st.moved ++ [f] } := by
    simp [mergeStep, h1, h2, h3]
  have hmoved : (mergeStep klighd jar st (f, c)).moved = st.moved ++ [f] := by
    rw [hstep]
  refine ⟨?_, hmoved, ?_⟩
  · rw [hstep]
    exact alook_asgn_self st.merged f c
  · intro files fe hfe heq
    rw [hmoved] at hfe
    simp only [leftoverFiles] at hfe
    have hp := List.of_mem_filter hfe
    rw [Bool.not_eq_true'] at hp
    rw [heq] at hp
    have hmem : strMem f (st.moved ++ [f]) = true := (strMem_iff _ _).mpr (by simp)
    rw [hp] at hmem
    exact Bool.noConfusion hmem

/-- Witness for C6 at a concrete input. -/
theorem C6_new_file_move_witness :
    alook (mergeStep false "a.plug_1.jar" ⟨[], false, [], []⟩
        ("x/y.txt", "hello")).merged "x/y.txt" = some "hello" ∧
    (mergeStep false "a.plug_1.jar" ⟨[], false, [], []⟩ ("x/y.txt", "hello")).moved
      = [] ++ ["x/y.txt"] := by
  have h := C6_new_file_move false "a.plug_1.jar" "x/y.txt" "hello" ⟨[], false, [], []⟩
    (by decide) (by decide) (by decide)
  exact ⟨h.1, h.2.1⟩

/-- C7: the nested-archive resolver returns an empty result (not an
error) when the manifest is absent; a qualifying classpath entry (not `.`,
containing `.jar`) whose file exists is moved into the input directory and
reported — silently skipped when a same-named file is already there — and
a qualifying entry whose file does not exist only produces a warning. -/
theorem C7_nested_resolver :
    (∀ (files : List (String × String)) (srcFiles : List String),
      alook files "META-INF/MANIFEST.MF" = none →
      handleNestedJarsOnClasspath files srcFiles = ⟨srcFiles, files, [], []⟩) ∧
    (∀ (st : NestedSt) (cp : String),
      pstrip cp ≠ "" → pstrip cp ≠ "." → pcontains (pstrip cp) ".jar" = true →
      ((alook st.remaining (pstrip cp)).isSome = true →
        (strMem (pbasename (pstrip cp)) st.srcFiles = true → processCP st cp = st) ∧
        (strMem (pbasename (pstrip cp)) st.srcFiles = false →
          processCP st cp =
            ⟨st.srcFiles ++ [pbasename (pstrip cp)], aerase st.remaining (pstrip cp),
             st.discovered ++ [pbasename (pstrip cp)], st.warnings⟩)) ∧
      ((alook st.remaining (pstrip cp)).isSome = false →
        processCP st cp = { st with warnings := st.warnings ++ [pstrip cp] })) := by
  constructor
  · intro files srcFiles h
    simp [handleNestedJarsOnClasspath, h]
  · intro st cp h1 h2 h3
    constructor
    · intro h4
      constructor
      · intro h5
        simp [processCP, h1, h2, h3, h4, h5]
      · intro h5
        simp [processCP, h1, h2, h3, h4, h5]
    · intro h4
      simp [processCP, h1, h2, h3, h4]

/-- Witness for C7 at concrete inputs: no manifest, a present nested jar
(with surrounding whitespace in the entry), and a missing one. -/
theorem C7_nested_resolver_witness :
    handleNestedJarsOnClasspath [("a.txt", "A")] ["s.jar"]
      = ⟨["s.jar"], [("a.txt", "A")], [], []⟩ ∧
    processCP ⟨["have.jar"], [("lib/inner.jar", "JJ")], [], []⟩ " lib/inner.jar "
      = ⟨["have.jar", "inner.jar"], [], ["inner.jar"], []⟩ ∧
    processCP ⟨["have.jar"], [], [], []⟩ "lib/missing.jar"
      = ⟨["have.jar"], [], [], ["lib/missing.jar"]⟩ := by
  refine ⟨?_, ?_, ?_⟩
  · exact C7_nested_resolver.1 [("a.txt", "A")] ["s.jar"] (by decide)
  · have h := ((C7_nested_resolver.2 ⟨["have.jar"], [("lib/inner.jar", "JJ")], [], []⟩
      " lib/inner.jar " (by decide) (by decide) (by decide)).1 (by decide)).2 (by decide)
    exact h.trans (by decide)
  · have h := (C7_nested_resolver.2 ⟨["have.jar"], [], [], []⟩
      "lib/missing.jar" (by decide) (by decide) (by decide)).2 (by decide)
    exact h.trans (by decide)

/-- C1: when a second archive contributes a file at an occupied path that
matches neither the append-merge nor the ignore-merge list, the merge step
records the error naming that archive and the path, raises the conflict
flag and keeps the existing file; and at the end of `main`, a raised
conflict flag exits with status 2 without the tolerance flag, and with it
the run completes with exit status 0 (the first writer's content having
been kept). -/
theorem C1_merge_conflict :
    (∀ (klighd : Bool) (j f c old : String) (st : MergeSt),
      matchesAny f IGNORED_FILES = false →
      (klighd && matchesAny f KLIGHD_IGNORED_FILES) = false →
      matchesAny f APPEND_MERGE = false →
      matchesAny f IGNORE_MERGE = false →
      alook st.merged f = some old →
      (mergeStep klighd j st (f, c)).conflictMsgs = st.conflictMsgs ++ [(j, f)] ∧
      (mergeStep klighd j st (f, c)).conflicts = true ∧
      alook (mergeStep klighd j st (f, c)).merged f = some old) ∧
    (∀ (args : Args) (w : MainWorld) (fuel : Nat) (st : ExtractSt),
      w.sourceIsDir = true →
      extractLoop w.jarTool (klighdDetect w.listing) fuel (initExtractSt w.listing)
        (sortStrings w.listing) = .ok st →
      st.ms.conflicts = true →
      (args.ignore_conflicts = false → topLevel args w fuel = ⟨2, false⟩) ∧
      (args.ignore_conflicts = true → w.bundleFails = false →
        (klighdDetect w.listing && !args.noswt &&
          st.swt.any (fun pb => w.updateFails pb.1)) = false →
        topLevel args w fuel = ⟨0, false⟩)) := by
  constructor
  · intro klighd j f c old st h1 h2 h3 h4 hold
    refine ⟨?_, ?_, ?_⟩ <;> simp [mergeStep, h1, h2, h3, h4, hold]
  · intro args w fuel st hdir hext hconf
    constructor
    · intro hig
      simp [topLevel, pymain, hdir, hext, hconf, hig]
    · intro hig hbf hupd
      simp [topLevel, pymain, hdir, hext, hconf, hig, hbf, hupd]

/-- Witness for C1 at the concrete two-archive `conf/app.ini` scenario. -/
theorem C1_merge_conflict_witness :
    ((mergeStep false "b.plug_1.0.0.jar" ⟨[("conf/app.ini", "A")], false, [], []⟩
        ("conf/app.ini", "B")).conflictMsgs = [("b.plug_1.0.0.jar", "conf/app.ini")] ∧
     (mergeStep false "b.plug_1.0.0.jar" ⟨[("conf/app.ini", "A")], false, [], []⟩
        ("conf/app.ini", "B")).conflicts = true ∧
     alook (mergeStep false "b.plug_1.0.0.jar" ⟨[("conf/app.ini", "A")], false, [], []⟩
        ("conf/app.ini", "B")).merged "conf/app.ini" = some "A") ∧
    topLevel c1argsStrict c1world 10 = ⟨2, false⟩ ∧
    topLevel c1argsTolerant c1world 10 = ⟨0, false⟩ := by
  refine ⟨?_, ?_, ?_⟩
  · have h := C1_merge_conflict.1 false "b.plug_1.0.0.jar" "conf/app.ini" "B" "A"
      ⟨[("conf/app.ini", "A")], false, [], []⟩
      (by decide) (by decide) (by decide) (by decide) (by decide)
    exact ⟨h.1.trans (by decide), h.2.1, h.2.2⟩
  · exact (C1_merge_conflict.2 c1argsStrict c1world 10 c1result
      (by decide) (by decide) (by decide)).1 (by decide)
  · exact (C1_merge_conflict.2 c1argsTolerant c1world 10 c1result
      (by decide) (by decide) (by decide)).2 (by decide) (by decide) (by decide)

/-- C3 counterexample: in a klighd run whose work list carries two SWT
fragments sharing the plugin family key `org.eclipse.swt.gtk.linux.x86`,
the later one is extracted (its tree overwrites the platform bucket) and
no duplicate-version warning is produced — against the claim that every
later archive with an already-seen family key warns and is skipped. -/
theorem C3_counterexample :
    familyKey "org.eclipse.swt.gtk.linux.x86_64_3.114.jar" =
      familyKey "org.eclipse.swt.gtk.linux.x86_64_3.116.jar" ∧
    (extractLoop c3wld true 10 (initExtractSt c3jars) c3jars).toOption.map
        (fun st => (st.dupWarnings, st.swt)) =
      some ([], [("linux", [("libswt.so", "v116")])]) := by
  constructor
  · decide
  · decide

/-- C3 (amended): at most one processed-archive record exists per plugin
family key — the recorded keys are always distinct — and every archive
whose family key already has a record is skipped with a duplicate-version
warning, contributing nothing: the step only appends the warning and the
consumed name.  (Klighd SWT fragments are never recorded, so two fragments
sharing a family key do not trigger the skip; see the counterexample.) -/
theorem C3_one_record_per_family :
    (∀ (w : Wld) (klighd : Bool) (fuel : Nat) (listing jars : List String)
        (st2 : ExtractSt),
      extractLoop w klighd fuel (initExtractSt listing) jars = .ok st2 →
      (st2.processed.map Prod.fst).Nodup) ∧
    (∀ (w : Wld) (klighd : Bool) (fuel : Nat) (st : ExtractSt) (jar : String)
        (rest : List String),
      pendsWith jar ".jar" = true →
      (klighd && matchesAny jar KLIGHD_JARS_BLACKLIST &&
        !(matchesAny jar KLIGHD_JARS_WHITELIST)) = false →
      strMem (familyKey jar) (st.processed.map Prod.fst) = true →
      extractLoop w klighd (fuel+1) st (jar :: rest) =
        extractLoop w klighd fuel
          { st with dupWarnings := st.dupWarnings ++ [jar],
                    past := st.past ++ [jar] } rest) := by
  constructor
  · intro w klighd fuel listing jars st2 h
    exact extractLoop_nodup w klighd fuel (initExtractSt listing) jars st2 h
      (by simp [initExtractSt])
  · intro w klighd fuel st jar rest h1 h2 h3
    exact extractLoop_dup_skip w klighd fuel st jar rest h1 h2 h3

/-- Witness for the amended C3 at concrete inputs: a one-archive run has
distinct record keys, and a second version of an already-recorded plugin
is skipped with a warning. -/
theorem C3_one_record_per_family_witness :
    (c3smallResult.processed.map Prod.fst).Nodup ∧
    extractLoop c3smallWld false 4
        ⟨⟨[], false, [], []⟩, [("a", "a_0.9.jar")], [], [], [], [], [], []⟩ ["a_1.jar"] =
      extractLoop c3smallWld false 3
        ⟨⟨[], false, [], []⟩, [("a", "a_0.9.jar")], ["a_1.jar"], [], [], [], ["a_1.jar"], []⟩
        [] := by
  constructor
  · exact C3_one_record_per_family.1 c3smallWld false 2 ["a_1.jar"] ["a_1.jar"]
      c3smallResult (by decide)
  · exact C3_one_record_per_family.2 c3smallWld false 3
      ⟨⟨[], false, [], []⟩, [("a", "a_0.9.jar")], [], [], [], [], [], []⟩ "a_1.jar" []
      (by decide) (by decide) (by decide)

/-- C9 counterexample: the later of two same-family SWT fragments is
extracted without a duplicate-version warning, but it is not merged: its
file lands in the platform bucket and the merged tree stays empty — so
"still extracted and merged" fails in its second half. -/
theorem C9_counterexample :
    familyKey "org.eclipse.swt.gtk.linux.x86_64_3.200.jar" =
      familyKey "org.eclipse.swt.gtk.linux.x86_64_3.201.jar" ∧
    (extractLoop c9wld true 10 (initExtractSt c9jars) c9jars).toOption.map
        (fun st => (st.dupWarnings, st.ms.merged)) = some ([], []) ∧
    (extractLoop c9wld true 10 (initExtractSt c9jars) c9jars).toOption.map
        (fun st => (st.swt, st.processed.map Prod.fst)) =
      some ([("linux", [("fragment.B", "second")])], ["de.cau.cs.kieler.klighd.core"]) := by
  refine ⟨?_, ?_, ?_⟩
  · decide
  · decide
  · decide

/-- C9 (amended): a recognized klighd SWT fragment is processed without
touching the processed-archive records or the duplicate warnings (its
filtered tree only goes to its platform bucket), so the duplicate-family
skip is never triggered by an SWT fragment; and any archive sharing an SWT
fragment's family key necessarily bears the `org.eclipse.swt.` prefix
itself, hence is also routed to a platform bucket (or the unknown-fragment
error) rather than being merged or skipped with a duplicate warning. -/
theorem C9_swt_never_recorded :
    (∀ (w : Wld) (st : ExtractSt) (jar : String) (rest : List String) (p : String),
      pendsWith jar ".jar" = true →
      (matchesAny jar KLIGHD_JARS_BLACKLIST &&
        !(matchesAny jar KLIGHD_JARS_WHITELIST)) = false →
      strMem (familyKey jar) (st.processed.map Prod.fst) = false →
      w.interrupt jar = false →
      w.unpackFails jar = false →
      pstartsWith jar "org.eclipse.swt." = true →
      swtPlatform jar = some p →
      extractStep w true st jar rest =
        .next { st with
                swt := asgn st.swt p ((w.contents jar).filter (fun fe =>
                  !(matchesAny fe.1 IGNORED_FILES ||
                    matchesAny fe.1 KLIGHD_IGNORED_FILES))),
                past := st.past ++ [jar] } []) ∧
    (∀ j1 j2 : String, pstartsWith j1 "org.eclipse.swt." = true →
      familyKey j2 = familyKey j1 → pstartsWith j2 "org.eclipse.swt." = true) :=
  ⟨extractStep_swt, swt_key_forces_swt_prefix⟩

/-- Witness for the amended C9 at concrete inputs. -/
theorem C9_swt_never_recorded_witness :
    extractStep
        ⟨fun _ => [("b.txt", "B")], fun _ => false, fun _ => false⟩ true
        ⟨⟨[], false, [], []⟩, [], [], [], [], [], [], []⟩
        "org.eclipse.swt.gtk.linux.x86_64_9.jar" [] =
      .next ⟨⟨[], false, [], []⟩, [], [], [], [("linux", [("b.txt", "B")])], [],
        ["org.eclipse.swt.gtk.linux.x86_64_9.jar"], []⟩ [] ∧
    pstartsWith "org.eclipse.swt.gtk.linux.x86_0.jar" "org.eclipse.swt." = true := by
  constructor
  · have h := C9_swt_never_recorded.1
      ⟨fun _ => [("b.txt", "B")], fun _ => false, fun _ => false⟩
      ⟨⟨[], false, [], []⟩, [], [], [], [], [], [], []⟩
      "org.eclipse.swt.gtk.linux.x86_64_9.jar" [] "linux"
      (by decide) (by decide) (by decide) (by decide) (by decide) (by decide) (by decide)
    exact h.trans (by decide)
  · exact C9_swt_never_recorded.2 "org.eclipse.swt.gtk.linux.x86_64_9.jar"
      "org.eclipse.swt.gtk.linux.x86_0.jar" (by decide) (by decide)

/-- C5 counterexample: a failure of the external archiver child process
does not terminate the run with exit status 2 — the `CalledProcessError`
raised by `check_call` is uncaught (only `KeyboardInterrupt` is handled),
so the interpreter exits with status 1. -/
theorem C5_counterexample :
    topLevel c5args c5world 5 = ⟨1, false⟩ ∧ (1 : Nat) ≠ 2 := by
  constructor
  · decide
  · decide

/-- C5 (amended): exit status 2 is produced for a missing input directory
and for an unresolved merge conflict without the tolerance flag; a failing
child process and the unknown-SWT-fragment branch (whose two-argument call
of the one-parameter `stop` raises `TypeError` before any exit) both
terminate through an uncaught exception with interpreter exit status 1. -/
theorem C5_exit_codes :
    (∀ (args : Args) (w : MainWorld) (fuel : Nat), w.sourceIsDir = false →
      topLevel args w fuel = ⟨2, false⟩) ∧
    (∀ (args : Args) (w : MainWorld) (fuel : Nat) (st : ExtractSt),
      w.sourceIsDir = true →
      extractLoop w.jarTool (klighdDetect w.listing) fuel (initExtractSt w.listing)
        (sortStrings w.listing) = .ok st →
      st.ms.conflicts = true → args.ignore_conflicts = false →
      topLevel args w fuel = ⟨2, false⟩) ∧
    (∀ (args : Args) (w : MainWorld) (fuel : Nat),
      w.sourceIsDir = true →
      extractLoop w.jarTool (klighdDetect w.listing) fuel (initExtractSt w.listing)
        (sortStrings w.listing) = .error .calledProcessError →
      topLevel args w fuel = ⟨1, false⟩) ∧
    (∀ (args : Args) (w : MainWorld) (fuel : Nat),
      w.sourceIsDir = true →
      extractLoop w.jarTool (klighdDetect w.listing) fuel (initExtractSt w.listing)
        (sortStrings w.listing) = .error .typeError →
      topLevel args w fuel = ⟨1, false⟩) ∧
    (∀ (w : Wld) (st : ExtractSt) (jar : String) (rest : List String),
      pendsWith jar ".jar" = true →
      (matchesAny jar KLIGHD_JARS_BLACKLIST &&
        !(matchesAny jar KLIGHD_JARS_WHITELIST)) = false →
      strMem (familyKey jar) (st.processed.map Prod.fst) = false →
      w.interrupt jar = false →
      w.unpackFails jar = false →
      pstartsWith jar "org.eclipse.swt." = true →
      swtPlatform jar = none →
      extractStep w true st jar rest = .raise .typeError) := by
  refine ⟨?_, ?_, ?_, ?_, ?_⟩
  · intro args w fuel hdir
    simp [topLevel, pymain, hdir]
  · intro args w fuel st hdir hext hconf hig
    simp [topLevel, pymain, hdir, hext, hconf, hig]
  · intro args w fuel hdir hext
    simp [topLevel, pymain, hdir, hext]
  · intro args w fuel hdir hext
    simp [topLevel, pymain, hdir, hext]
  · intro w st jar rest h1 h2 h3 h4 h5 h6 h7
    exact extractStep_swt_unknown w st jar rest h1 h2 h3 h4 h5 h6 h7

/-- Witness for the amended C5 at concrete inputs: missing input
directory, a conflicting run without tolerance, a failing child process,
an unknown SWT fragment at top level, and the unknown-fragment step. -/
theorem C5_exit_codes_witness :
    topLevel ⟨false, false, false, false⟩
      ⟨false, [], ⟨fun _ => [], fun _ => false, fun _ => false⟩, none, none, false,
        fun _ => false⟩ 1 = ⟨2, false⟩ ∧
    topLevel ⟨false, false, false, false⟩
      ⟨true, ["x.one_1.jar", "y.two_1.jar"],
        ⟨fun j => if j = "x.one_1.jar" then [("data.bin", "1")]
                  else if j = "y.two_1.jar" then [("data.bin", "2")] else [],
         fun _ => false, fun _ => false⟩, none, none, false, fun _ => false⟩ 10
      = ⟨2, false⟩ ∧
    topLevel c5args c5world 5 = ⟨1, false⟩ ∧
    topLevel ⟨false, false, false, false⟩
      ⟨true, ["de.cau.cs.kieler.klighd.z_1.jar", "org.eclipse.swt.qnx_1.jar"],
        ⟨fun _ => [], fun _ => false, fun _ => false⟩, none, none, false,
        fun _ => false⟩ 10 = ⟨1, false⟩ ∧
    extractStep ⟨fun _ => [], fun _ => false, fun _ => false⟩ true
      ⟨⟨[], false, [], []⟩, [], [], [], [], [], [], []⟩
      "org.eclipse.swt.hpux_2.jar" [] = .raise .typeError := by
  refine ⟨?_, ?_, ?_, ?_, ?_⟩
  · exact C5_exit_codes.1 ⟨false, false, false, false⟩
      ⟨false, [], ⟨fun _ => [], fun _ => false, fun _ => false⟩, none, none, false,
        fun _ => false⟩ 1 (by decide)
  · exact C5_exit_codes.2.1 ⟨false, false, false, false⟩
      ⟨true, ["x.one_1.jar", "y.two_1.jar"],
        ⟨fun j => if j = "x.one_1.jar" then [("data.bin", "1")]
                  else if j = "y.two_1.jar" then [("data.bin", "2")] else [],
         fun _ => false, fun _ => false⟩, none, none, false, fun _ => false⟩ 10
      ⟨⟨[("data.bin", "1")], true, [("y.two_1.jar", "data.bin")], []⟩,
       [("x.one", "x.one_1.jar"), ("y.two", "y.two_1.jar")], [], [], [],
       ["x.one_1.jar", "y.two_1.jar"], ["x.one_1.jar", "y.two_1.jar"],
       [("x.one_1.jar", []), ("y.two_1.jar", [("data.bin", "2")])]⟩
      (by decide) (by decide) (by decide) (by decide)
  · exact C5_exit_codes.2.2.1 c5args c5world 5 (by decide) (by decide)
  · exact C5_exit_codes.2.2.2.1 ⟨false, false, false, false⟩
      ⟨true, ["de.cau.cs.kieler.klighd.z_1.jar", "org.eclipse.swt.qnx_1.jar"],
        ⟨fun _ => [], fun _ => false, fun _ => false⟩, none, none, false,
        fun _ => false⟩ 10 (by decide) (by decide)
  · exact C5_exit_codes.2.2.2.2 ⟨fun _ => [], fun _ => false, fun _ => false⟩
      ⟨⟨[], false, [], []⟩, [], [], [], [], [], [], []⟩ "org.eclipse.swt.hpux_2.jar" []
      (by decide) (by decide) (by decide) (by decide) (by decide) (by decide) (by decide)

/-- C8: the `Create build folders` step does not recreate a pre-existing
build folder: when the directory already exists it is removed by
`shutil.rmtree` and, on that branch, never created again, so after setup
it does not exist (against the claim that both directories exist and are
empty regardless of their prior state); only a previously missing
directory ends up existing and empty.  The `# Create build folders`
comment and the spec show the intent; the `if/else` that should be an
unconditional remove-then-create is the slip. -/
theorem C8_build_folders :
    createBuildFolder (some ["stale.txt"]) = none ∧
    createBuildFolder none = some [] :=
  ⟨rfl, rfl⟩

/-- C10: whenever `main` is interrupted by SIGINT (a `KeyboardInterrupt`
reaching the top-level handler), the process prints `Abort` and exits with
status 0 — the success status — rather than the fatal status 2. -/
theorem C10_keyboard_interrupt (args : Args) (w : MainWorld) (fuel : Nat)
    (h : pymain args w fuel = .error .keyboardInterrupt) :
    topLevel args w fuel = ⟨0, true⟩ := by
  simp [topLevel, h]

/-- Witness for C10: a run interrupted during the only archive's
extraction exits 0 with the `Abort` message. -/
theorem C10_keyboard_interrupt_witness :
    topLevel c10args c10world 5 = ⟨0, true⟩ :=
  C10_keyboard_interrupt c10args c10world 5 (by decide)

end Uberjar
